import Mathlib

/-!
# Verification of the `array-index-check-undefined` ESLint rule

Shallow embedding of `src/rules/array-index-check-undefined/index.ts`
(eslint-plugin-sellernote-be).  The embedding models the ESTree fragment the
rule inspects (member/call/logical/binary/unary/conditional/assignment/chain
expressions; expression, declaration, `if`, block, `for`, `return`, `throw`
statements), the rule's guard-recognition predicates, its scope-aware binding
resolution, the optional type-based exemption oracle, and the whole per-file
analysis as a fold over the depth-first traversal.

Parent-pointer walks of the source (`node.parent` loops) are modelled by the
list of ancestor frames of a node, innermost first: each `Frame` records the
kind of the parent node, the child slot the walk came from, and the sibling
data the source inspects at that parent.
-/

namespace AIC

/-- ESTree literal values as far as the rule distinguishes them
(`typeof value === 'number'`, `value === null`, string keys). -/
inductive LitVal where
  | num (n : Nat)
  | str (s : String)
  | nul
  | boolean (b : Bool)

/-- The expression fragment of ESTree that the rule inspects.
`member obj prop computed optional` is a `MemberExpression`;
`arrayLit`/`objLit` stand for initializers the rule never looks into. -/
inductive Expr where
  | ident (name : String)
  | lit (v : LitVal)
  | member (obj : Expr) (prop : Expr) (computed : Bool) (optional : Bool)
  | call (callee : Expr) (args : List Expr) (optional : Bool)
  | binary (op : String) (l : Expr) (r : Expr)
  | logical (op : String) (l : Expr) (r : Expr)
  | unary (op : String) (arg : Expr)
  | cond (test : Expr) (cons : Expr) (alt : Expr)
  | assign (l : Expr) (r : Expr)
  | chain (e : Expr)
  | arrayLit
  | objLit

/-- The statement fragment of ESTree that the rule inspects.  A
`varDecl` holds its declarators as `(id, init)` pairs, where the id is
`some name` exactly when it is a plain `Identifier` pattern. -/
inductive Stmt where
  | exprStmt (e : Expr)
  | varDecl (decls : List (Option String × Option Expr))
  | ifStmt (test : Expr) (cons : Stmt) (alt : Option Stmt)
  | block (body : List Stmt)
  | forStmt (init : Option Stmt) (test : Option Expr) (update : Option Expr) (body : Stmt)
  | ret (arg : Option Expr)
  | throwStmt (arg : Expr)
  | emptyStmt

/-- JavaScript `String(value)` on the literal values the rule stringifies
(only numeric literals reach this point in `getArrayIndexAccessKey`). -/
def litString : LitVal → String
  | .num n => toString n
  | .str s => s
  | .nul => "null"
  | .boolean b => toString b

/-- The `optional` flag of a node (`node.optional`), false for node kinds
that have none. -/
def exprOptional : Expr → Bool
  | .member _ _ _ opt => opt
  | .call _ _ opt => opt
  | _ => false

/-- Source `isArrayIndexAccess` (lines 137-149): a computed member access
whose key is a numeric literal, an identifier, or a binary expression. -/
def isArrayIndexAccess : Expr → Bool
  | .member _ prop computed _ =>
    computed &&
      (match prop with
       | .lit (.num _) => true
       | .ident _ => true
       | .binary _ _ _ => true
       | _ => false)
  | _ => false

/-- Source `getObjectKey` (lines 154-165): dotted-path string of an object
expression made of identifiers and non-computed member accesses. -/
def getObjectKey : Expr → Option String
  | .ident n => some n
  | .member obj prop computed _ =>
    if computed then none
    else
      match getObjectKey obj, prop with
      | some objKey, .ident pn => some (objKey ++ "." ++ pn)
      | _, _ => none
  | _ => none

/-- Fusion of the source's mutually recursive `getMemberExpressionKey`
(lines 292-318) and `getArrayIndexAccessKey` (lines 254-287).  The two
functions call each other only as `getMemberExpressionKey(computed m) =
getArrayIndexAccessKey(m)` and `getArrayIndexAccessKey(m)` recursing into
`getMemberExpressionKey(m.object)`, so inlining the array-index body into
the computed branch yields a single structurally recursive function with
the same graph; `getArrayIndexAccessKey` and `getMemberExpressionKey` below
are its restrictions. -/
def memberKey : Expr → Option String
  | node@(.member obj prop computed _) =>
    if computed then
      -- getArrayIndexAccessKey body (lines 254-287)
      if !isArrayIndexAccess node then none
      else
        match (match obj with
               | .ident n => some n
               | .member _ _ _ _ => memberKey obj
               | _ => none) with
        | none => none
        | some objectKey =>
          match prop with
          | .lit v => some (objectKey ++ "[" ++ litString v ++ "]")
          | .ident n => some (objectKey ++ "[" ++ n ++ "]")
          | _ => none
    else
      -- getMemberExpressionKey dot branch (lines 298-317)
      match (match obj with
             | .ident n => some n
             | .member _ _ _ _ => memberKey obj
             | _ => none) with
      | none => none
      | some objectKey =>
        match prop with
        | .ident pn => some (objectKey ++ "." ++ pn)
        | _ => none
  | _ => none

/-- Source `getArrayIndexAccessKey` (lines 254-287): canonical string key
`"object[index]"` of an array-index access, `none` when the access is not a
classified index access or its pieces cannot be canonicalized.  The
source's leading `isArrayIndexAccess` bailout implies the access is
computed, on which `memberKey` is exactly the source body. -/
def getArrayIndexAccessKey (node : Expr) : Option String :=
  if !isArrayIndexAccess node then none else memberKey node

/-- Source `getMemberExpressionKey` (lines 292-318): canonical string key of
a member chain, using bracket segments for computed accesses and dot
segments otherwise. -/
def getMemberExpressionKey (node : Expr) : Option String :=
  memberKey node

/-- Right-hand side of a comparison is a `null` literal (source also accepts
a `Literal` whose value is `undefined`, a shape ESTree never produces). -/
def isNullLiteralExpr : Expr → Bool
  | .lit .nul => true
  | _ => false

/-- Right-hand side of a comparison is the identifier `undefined`. -/
def isUndefinedIdentifierExpr : Expr → Bool
  | .ident n => n == "undefined"
  | _ => false

/-- Source `isBinaryNullCheck` (lines 415-431): `variable OP null/undefined`
with `OP` one of `!==`, `!=`, `===`, `==`; the variable must be the LEFT
operand and the literal the RIGHT operand. -/
def isBinaryNullCheck (expr : Expr) (variableName : String) : Bool :=
  match expr with
  | .binary op l r =>
    if op != "!==" && op != "!=" && op != "===" && op != "==" then false
    else if !(match l with | .ident n => n == variableName | _ => false) then false
    else isNullLiteralExpr r || isUndefinedIdentifierExpr r
  | _ => false

/-- Source `isBinaryNullCheckForExpression` (lines 436-458): same as
`isBinaryNullCheck` but the left operand must be a member expression whose
array-index-access key equals `expressionKey`. -/
def isBinaryNullCheckForExpression (expr : Expr) (expressionKey : String) : Bool :=
  match expr with
  | .binary op l r =>
    if op != "!==" && op != "!=" && op != "===" && op != "==" then false
    else if !(match l with | .member _ _ _ _ => true | _ => false) then false
    else if getArrayIndexAccessKey l != some expressionKey then false
    else isNullLiteralExpr r || isUndefinedIdentifierExpr r
  | _ => false

/-- Source `checksForNullish` (lines 463-493), the variable-name form of the
nullish-check recognizer: bare truthiness `item`, negated truthiness
`!item`, binary null check, and `&&`/`||` recursion on both sides. -/
def checksForNullish (test : Expr) (variableName : String) : Bool :=
  match test with
  | .ident n => n == variableName
  | .unary op arg =>
    op == "!" && (match arg with | .ident n => n == variableName | _ => false)
  | .binary _ _ _ => isBinaryNullCheck test variableName
  | .logical op l r =>
    (op == "&&" || op == "||") &&
      (checksForNullish l variableName || checksForNullish r variableName)
  | _ => false

/-- Source `checksForNullishExpression` (lines 498-518), the structural-key
form of the nullish-check recognizer: bare member access whose key matches,
binary null check, and `&&` recursion.  Unlike `checksForNullish` it has no
case for unary `!` and none for `||`. -/
def checksForNullishExpression (test : Expr) (expressionKey : String) : Bool :=
  match test with
  | .member _ _ _ _ => getArrayIndexAccessKey test == some expressionKey
  | .binary _ _ _ => isBinaryNullCheckForExpression test expressionKey
  | .logical op l r =>
    op == "&&" &&
      (checksForNullishExpression l expressionKey ||
        checksForNullishExpression r expressionKey)
  | _ => false

/-- Source `isFalsyCheckExpression` (lines 715-724): `!expr` where `expr` is
a member access whose key matches. -/
def isFalsyCheckExpression (test : Expr) (expressionKey : String) : Bool :=
  match test with
  | .unary op arg =>
    op == "!" &&
      (match arg with
       | .member _ _ _ _ => getArrayIndexAccessKey arg == some expressionKey
       | _ => false)
  | _ => false

mutual

/-- Source `hasEarlyExit` (lines 534-544): the statement is a `throw` or
`return`, or a block containing one (recursively). -/
def hasEarlyExit : Stmt → Bool
  | .throwStmt _ => true
  | .ret _ => true
  | .block body => hasEarlyExitList body
  | _ => false

/-- Body of `statement.body.some((stmt) => hasEarlyExit(stmt))`. -/
def hasEarlyExitList : List Stmt → Bool
  | [] => false
  | s :: rest => hasEarlyExit s || hasEarlyExitList rest

end

mutual

/-- Source `hasAssignmentToExpression` (lines 729-745): an expression
statement assigning to a member access with the given key, or a block
containing one (recursively). -/
def hasAssignmentToExpression (statement : Stmt) (expressionKey : String) : Bool :=
  match statement with
  | .exprStmt e =>
    (match e with
     | .assign l _ =>
       (match l with
        | .member _ _ _ _ => getArrayIndexAccessKey l == some expressionKey
        | _ => false)
     | _ => false)
  | .block body => hasAssignmentToExpressionList body expressionKey
  | _ => false

/-- Body of `statement.body.some((stmt) => hasAssignmentToExpression(stmt, ...))`. -/
def hasAssignmentToExpressionList (body : List Stmt) (expressionKey : String) : Bool :=
  match body with
  | [] => false
  | s :: rest =>
    hasAssignmentToExpression s expressionKey ||
      hasAssignmentToExpressionList rest expressionKey

end

/-- Source `getForLoopArrayInfo` (lines 171-220) applied to the loop's
optional test: accepts `<` or `<=` with an identifier on the left and, on
the right, either a `.length` member access or a `-` whose left operand is a
`.length` member access (the subtrahend is not inspected). -/
def getForLoopArrayInfo (test : Option Expr) : Option (String × String) :=
  match test with
  | none => none
  | some t =>
    match t with
    | .binary op l r =>
      if op != "<" && op != "<=" then none
      else
        match l with
        | .ident indexVar =>
          let lengthExpr? : Option Expr :=
            match r with
            | .member o p c opt => some (.member o p c opt)
            | .binary subOp rl _ =>
              if subOp == "-" then
                match rl with
                | .member o p c opt => some (.member o p c opt)
                | _ => none
              else none
            | _ => none
          match lengthExpr? with
          | none => none
          | some le =>
            match le with
            | .member lobj lprop _ _ =>
              (match lprop with
               | .ident pn =>
                 if pn == "length" then
                   (getObjectKey lobj).map (fun arrayKey => (indexVar, arrayKey))
                 else none
               | _ => none)
            | _ => none
        | _ => none
    | _ => none

/-- Source `hasEarlyExitPatternForExpression` (lines 704-710). -/
def hasEarlyExitPatternForExpression (prevStatement : Stmt) (expressionKey : String) : Bool :=
  match prevStatement with
  | .ifStmt test cons _ =>
    checksForNullishExpression test expressionKey && hasEarlyExit cons
  | _ => false

/-- Source `hasInitializationPatternForExpression` (lines 751-763):
`if (!expr) { expr = value; }`. -/
def hasInitializationPatternForExpression (prevStatement : Stmt) (expressionKey : String) : Bool :=
  match prevStatement with
  | .ifStmt test cons _ =>
    isFalsyCheckExpression test expressionKey &&
      hasAssignmentToExpression cons expressionKey
  | _ => false

/-- Source `hasEarlyExitPatternForVariable` (lines 768-774). -/
def hasEarlyExitPatternForVariable (prevStatement : Stmt) (variableName : String) : Bool :=
  match prevStatement with
  | .ifStmt test cons _ =>
    checksForNullish test variableName && hasEarlyExit cons
  | _ => false

/-! ## Ancestor frames

The source walks `node.parent` chains.  A node's ancestry is modelled as a
list of frames, innermost parent first.  Each frame names the parent's node
kind, the child slot the walk descends through, and the sibling data the
walks inspect at that parent.  Frames for parents the walks never inspect
(`BinaryExpression`, `UnaryExpression`, `AssignmentExpression`, call
arguments, member properties, expression/return/throw statements, the
declarator inside its declaration) carry no payload or are collapsed. -/

inductive Frame where
  /-- Parent is a `MemberExpression` and the node is its `object`; carries
  the parent's property, `computed` and `optional` fields. -/
  | memberObjF (prop : Expr) (computed : Bool) (optional : Bool)
  /-- Parent is a `MemberExpression` and the node is its `property`. -/
  | memberPropF
  /-- Parent is a `CallExpression` and the node is its `callee`; carries the
  parent's `optional` field. -/
  | callCalleeF (optional : Bool)
  /-- Parent is a `CallExpression` and the node is one of its arguments. -/
  | callArgF
  /-- Parent is a `LogicalExpression` and the node is in its left operand. -/
  | logicalLeftF (op : String) (right : Expr)
  /-- Parent is a `LogicalExpression` and the node is in its right operand. -/
  | logicalRightF (op : String) (left : Expr)
  /-- Parent is a `BinaryExpression`. -/
  | binaryChildF
  /-- Parent is a `UnaryExpression`. -/
  | unaryChildF
  /-- Parent is a `ConditionalExpression`; node in the `test` slot. -/
  | condTestF
  /-- Parent is a `ConditionalExpression`; node in the `consequent` slot. -/
  | condConsF
  /-- Parent is a `ConditionalExpression`; node in the `alternate` slot. -/
  | condAltF
  /-- Parent is an `AssignmentExpression`. -/
  | assignChildF
  /-- Parent is a `ChainExpression`. -/
  | chainF
  /-- Parent is a `VariableDeclarator` and the node is its initializer; the
  payload is the declared name when the id is a plain identifier. -/
  | declInitF (name : Option String)
  /-- Parent is an `ExpressionStatement`. -/
  | exprStmtF
  /-- Parent is an `IfStatement`; node in the `test` slot. -/
  | ifTestF
  /-- Parent is an `IfStatement`; node in the `consequent` slot; carries the
  statement's test. -/
  | ifConsF (test : Expr)
  /-- Parent is an `IfStatement`; node in the `alternate` slot. -/
  | ifAltF
  /-- Parent is a `ForStatement` (any slot); carries the loop's test. -/
  | forF (test : Option Expr)
  /-- Parent is a `BlockStatement` or the `Program`; `before` and `after`
  are the sibling statements before and after the node, in source order. -/
  | blockF (before : List Stmt) (after : List Stmt)
  /-- Parent is a `ReturnStatement` or `ThrowStatement`. -/
  | retThrowF

/-- Source `checkNodeSafety` (lines 361-375) at one ancestor: any
`IfStatement` counts, a `LogicalExpression` counts when the node is in the
right operand of `&&` (`isSafeInLogicalAnd`) or the operator is `??`
(`isNullishCoalescing`, either side), a `ConditionalExpression` counts when
the node is in its test or consequent (`isSafeInConditional`). -/
def checkNodeSafetyFrame : Frame → Bool
  | .ifTestF => true
  | .ifConsF _ => true
  | .ifAltF => true
  | .logicalLeftF op _ => op == "??"
  | .logicalRightF op _ => op == "&&" || op == "??"
  | .condTestF => true
  | .condConsF => true
  | _ => false

/-- Source `isInsideNullCheck` (lines 380-391): some ancestor satisfies
`checkNodeSafety`. -/
def isInsideNullCheck (frames : List Frame) : Bool :=
  frames.any checkNodeSafetyFrame

/-- Source `hasOptionalChaining` (lines 396-410) for a node with ancestry
`frames`: the node's own `optional` flag, or some ancestor is a
`ChainExpression`. -/
def hasOptionalChaining (node : Expr) (frames : List Frame) : Bool :=
  exprOptional node ||
    frames.any (fun f => match f with | .chainF => true | _ => false)

/-- Source `isInsideSafeForLoop` (lines 225-249): the access's key is an
identifier, its object canonicalizes, and some enclosing `ForStatement` has
a matching `getForLoopArrayInfo`. -/
def isInsideSafeForLoop (node : Expr) (frames : List Frame) : Bool :=
  match node with
  | .member obj prop _ _ =>
    (match prop with
     | .ident indexVar =>
       (match getObjectKey obj with
        | none => false
        | some arrayKey =>
          frames.any (fun f =>
            match f with
            | .forF test => getForLoopArrayInfo test == some (indexVar, arrayKey)
            | _ => false))
     | _ => false)
  | _ => false

/-- Source `findContainingStatement` + `getStatements` (lines 679-699): the
statements preceding the node's containing statement in the nearest
enclosing block or program, `none` when there is no such block. -/
def precedingStatements : List Frame → Option (List Stmt)
  | [] => none
  | .blockF before _ :: _ => some before
  | _ :: rest => precedingStatements rest

/-- Source `checkPreviousIfStatementsForExpression` (lines 779-809): some
statement before the containing statement is an early-exit nullish guard or
a lazy-initialization pattern for the key. -/
def checkPreviousIfStatementsForExpression (frames : List Frame) (expressionKey : String) : Bool :=
  match precedingStatements frames with
  | none => false
  | some stmts =>
    stmts.any (fun prev =>
      hasEarlyExitPatternForExpression prev expressionKey ||
        hasInitializationPatternForExpression prev expressionKey)

/-- Source `checkPreviousIfStatementsForVariable` (lines 814-838). -/
def checkPreviousIfStatementsForVariable (frames : List Frame) (variableName : String) : Bool :=
  match precedingStatements frames with
  | none => false
  | some stmts =>
    stmts.any (fun prev => hasEarlyExitPatternForVariable prev variableName)

/-- The ancestor loop of `isInsideNullCheckedBlock` (lines 653-671):
`isInsideIfConsequent` at each `IfStatement` whose consequent contains the
node, `isInsideLogicalAndRight` at each `LogicalExpression`.  The `first`
flag tracks whether the frame is the node's immediate parent: the source's
`isDescendant(logicalExpr.right, node)` is false when the node IS the right
operand, so a `logicalRightF` immediate parent does not count. -/
def nullCheckedWalkVar (variableName : String) : List Frame → Bool → Bool
  | [], _ => false
  | f :: rest, first =>
    (match f with
     | .ifConsF test => checksForNullish test variableName
     | .logicalRightF op left =>
       !first && op == "&&" &&
         (match left with | .ident n => n == variableName | _ => false)
     | _ => false) ||
      nullCheckedWalkVar variableName rest false

/-- Source `isInsideNullCheckedBlock` (lines 647-674). -/
def isInsideNullCheckedBlock (frames : List Frame) (variableName : String) : Bool :=
  checkPreviousIfStatementsForVariable frames variableName ||
    nullCheckedWalkVar variableName frames true

/-- The ancestor loop of `isInsideNullCheckedBlockExpression`
(lines 849-867), structural-key form; see `nullCheckedWalkVar` for the
`first` flag (`isInsideLogicalAndRightExpression` line 641 also uses the
strict `isDescendant`). -/
def nullCheckedWalkExpr (expressionKey : String) : List Frame → Bool → Bool
  | [], _ => false
  | f :: rest, first =>
    (match f with
     | .ifConsF test => checksForNullishExpression test expressionKey
     | .logicalRightF op left =>
       !first && op == "&&" &&
         (match left with
          | .member _ _ _ _ => getArrayIndexAccessKey left == some expressionKey
          | _ => false)
     | _ => false) ||
      nullCheckedWalkExpr expressionKey rest false

/-- Source `isInsideNullCheckedBlockExpression` (lines 843-870). -/
def isInsideNullCheckedBlockExpression (frames : List Frame) (expressionKey : String) : Bool :=
  checkPreviousIfStatementsForExpression frames expressionKey ||
    nullCheckedWalkExpr expressionKey frames true

/-- Source `isUnsafePropertyAccess` (lines 875-882): the immediate parent is
a member expression with the node as its object, the parent has no optional
chaining, and the node is not inside a null-check context. -/
def isUnsafePropertyAccess (_node : Expr) (frames : List Frame) : Bool :=
  match frames with
  | .memberObjF _ _ parentOptional :: rest =>
    !(parentOptional ||
        rest.any (fun f => match f with | .chainF => true | _ => false)) &&
      !isInsideNullCheck frames
  | _ => false

/-- Source `isUnsafeFunctionCall` (lines 887-894): the immediate parent is a
call with the node as its callee, the node has no optional chaining, and the
node is not inside a null-check context. -/
def isUnsafeFunctionCall (node : Expr) (frames : List Frame) : Bool :=
  match frames with
  | .callCalleeF _ :: _ =>
    !hasOptionalChaining node frames && !isInsideNullCheck frames
  | _ => false

/-- Source `getArrayIndexVariableName` (lines 899-908): the declared name
when the node is the initializer of a plain-identifier declarator. -/
def getArrayIndexVariableName (frames : List Frame) : Option String :=
  match frames with
  | .declInitF name :: _ => name
  | _ => none

/-! ## Type-based exemption oracle

`ts.Type` is modelled by the facts about a type that `isEnumType` and
`isTypeSafeIndex` query: flag bits, literal-kind tests, union membership,
whether the symbol's declarations are enum members, the checker's
array/tuple answers for it, its base constraint, and its property count.
`getBaseConstraintOfType` returning the type itself or a falsy value is
collapsed into `baseConstraint = none` (the source guards the recursion
with `indexBaseConstraint && indexBaseConstraint !== indexType`). -/

inductive TSType where
  | mk (numberFlag : Bool) (enumLiteralFlag : Bool)
      (numberLit : Bool) (stringLit : Bool)
      (unionTypes : Option (List TSType))
      (symbolEnum : Bool)
      (arrayType : Bool) (tupleType : Bool)
      (baseConstraint : Option TSType)
      (numProperties : Nat)

/-- Flag test `type.flags & ts.TypeFlags.Number`. -/
def TSType.numberFlag : TSType → Bool
  | .mk nf _ _ _ _ _ _ _ _ _ => nf

/-- Flag test `type.flags & ts.TypeFlags.EnumLiteral`. -/
def TSType.enumLiteralFlag : TSType → Bool
  | .mk _ el _ _ _ _ _ _ _ _ => el

/-- Answer of `type.isNumberLiteral()`. -/
def TSType.numberLit : TSType → Bool
  | .mk _ _ nl _ _ _ _ _ _ _ => nl

/-- Answer of `type.isStringLiteral()`. -/
def TSType.stringLit : TSType → Bool
  | .mk _ _ _ sl _ _ _ _ _ _ => sl

/-- Answer of `type.isUnion()` together with `type.types`. -/
def TSType.unionTypes : TSType → Option (List TSType)
  | .mk _ _ _ _ u _ _ _ _ _ => u

/-- The symbol has a declaration that is an enum member or whose parent is
an enum declaration (source lines 66-72). -/
def TSType.symbolEnum : TSType → Bool
  | .mk _ _ _ _ _ se _ _ _ _ => se

/-- Answer of `checker.isArrayType(type)`. -/
def TSType.arrayType : TSType → Bool
  | .mk _ _ _ _ _ _ a _ _ _ => a

/-- Answer of `checker.isTupleType(type)`. -/
def TSType.tupleType : TSType → Bool
  | .mk _ _ _ _ _ _ _ t _ _ => t

/-- Answer of `checker.getBaseConstraintOfType(type)` when it exists and differs from
the type itself. -/
def TSType.baseConstraint : TSType → Option TSType
  | .mk _ _ _ _ _ _ _ _ bc _ => bc

/-- Source `isEnumType` (lines 54-75): the `EnumLiteral` flag, or a union
whose members all carry the `EnumLiteral` flag (the union case returns its
answer immediately), or an enum-declaration symbol. -/
def isEnumType (t : TSType) : Bool :=
  if t.enumLiteralFlag then true
  else
    match t.unionTypes with
    | some types => types.all (fun u => u.enumLiteralFlag)
    | none => t.symbolEnum

/-- Source `isTypeSafeIndex` (lines 80-132), in source order: numeric key
never safe, array/tuple object never safe, enum key safe, all-literal union
key safe, string-literal key safe, else recurse into the base constraint,
else unsafe (the final property-count inspection returns false on both of
its branches). -/
def isTypeSafeIndex : TSType → TSType → Bool
  | .mk nf el nl sl union se at_ tt_ bc np, objectType =>
    let indexType : TSType := .mk nf el nl sl union se at_ tt_ bc np
    if indexType.numberFlag then false
    else if indexType.numberLit then false
    else if objectType.arrayType || objectType.tupleType then false
    else if isEnumType indexType then true
    else if (match union with
             | some types =>
               types.all (fun u => u.stringLit || u.numberLit || isEnumType u)
             | none => false) then true
    else if indexType.stringLit then true
    else
      match bc with
      | some c => isTypeSafeIndex c objectType
      | none => false

/-- The host type-checking capability: `query` models
`esTreeNodeToTSNodeMap.get` plus the `isElementAccessExpression` test plus
`getTypeAtLocation` on the object and argument expressions.  `.error`
models a thrown exception; `.ok none` models a missing or non-element-access
TS node; `.ok (some (objectType, indexType))` yields the two types. -/
structure TypeServices where
  query : Expr → Except Unit (Option (TSType × TSType))

/-- Source `isSafeKeyAccess` (lines 19-49): `false` without services, for
non-computed accesses, for keys that are not identifiers, when the TS node
is missing or not an element access, and when the query throws; otherwise
`isTypeSafeIndex` on the key and object types. -/
def isSafeKeyAccess (node : Expr) (services : Option TypeServices) : Bool :=
  match services with
  | none => false
  | some sv =>
    match node with
    | .member obj prop computed opt =>
      if !computed then false
      else
        (match prop with
         | .ident _ =>
           (match sv.query (.member obj prop computed opt) with
            | .error _ => false
            | .ok none => false
            | .ok (some (objectType, indexType)) => isTypeSafeIndex indexType objectType)
         | _ => false)
    | _ => false

/-! ## Scope-aware binding resolution

Nodes are identified by their traversal path (the list of child indices
from the program root), which stands in for JavaScript object identity.
The ESLint scope manager is modelled by a chain of scopes, innermost first;
each scope holds its variables, and each variable its definitions.  A
definition is a `VariableDeclarator` (identified by its path), a function
parameter, or something else — only declarator definitions can be members
of the rule's `arrayIndexDeclarations` set. -/

abbrev Path := List Nat

/-- One definition of a scope variable (`variable.defs` entries). -/
inductive VarDef where
  | declarator (p : Path)
  | param
  | otherDef

/-- One entry of `scope.variables`. -/
structure ScopeVar where
  name : String
  defs : List VarDef

/-- Source `isArrayIndexVariable` (lines 943-968): walk the scope chain
outward; at the first scope holding a variable of the name, answer whether
one of its declarator definitions is registered, and stop — a found but
unregistered variable (parameter, re-declaration) resolves to `false`
without consulting outer scopes. -/
def isArrayIndexVariable (registered : List Path) :
    List (List ScopeVar) → String → Bool
  | [], _ => false
  | scope :: upper, name =>
    match scope.find? (fun v => v.name == name) with
    | some v =>
      v.defs.any (fun d =>
        match d with
        | .declarator p => registered.contains p
        | _ => false)
    | none => isArrayIndexVariable registered upper name

/-! ## Diagnostics and handlers -/

/-- The node a diagnostic is anchored at: the member-access node itself
(`context.report({ node })` in the `MemberExpression` handler) or the
identifier object/callee (`context.report({ node: objectNode })`). -/
inductive RNode where
  | memberN (m : Expr)
  | identN (name : String)

/-- A reported diagnostic: anchor path, anchored node, message id. -/
structure Diag where
  anchor : Path
  rnode : RNode
  messageId : String

/-- The `VariableDeclarator` handler (lines 972-985): register the
declarator when its initializer is a classified index access with a plain
identifier id, unless the type oracle exempts the access. -/
def registerDeclarator (exempt : Expr → Bool) (registered : List Path)
    (declPath : Path) (id : Option String) (init : Option Expr) : List Path :=
  match init, id with
  | some e, some _ =>
    if (match e with | .member _ _ _ _ => true | _ => false) && isArrayIndexAccess e then
      if exempt e then registered else registered ++ [declPath]
    else registered
  | _, _ => registered

/-- The `MemberExpression` handler (lines 988-1029): bail out for
non-classified accesses, initializer positions, oracle-exempt accesses,
loop-protected accesses and null-checked structural keys; then report the
direct property access or direct call case. -/
def memberExpressionHandler (exempt : Expr → Bool) (frames : List Frame)
    (p : Path) (node : Expr) : Option Diag :=
  if !isArrayIndexAccess node then none
  else if (getArrayIndexVariableName frames).isSome then none
  else if exempt node then none
  else if isInsideSafeForLoop node frames then none
  else if (match getArrayIndexAccessKey node with
           | some expressionKey => isInsideNullCheckedBlockExpression frames expressionKey
           | none => false) then none
  else if isUnsafePropertyAccess node frames then
    some ⟨p, .memberN node, "issue:unsafe-access"⟩
  else if isUnsafeFunctionCall node frames then
    some ⟨p, .memberN node, "issue:unsafe-access"⟩
  else none

/-- The `MemberExpression[object.type="Identifier"]` handler
(lines 1032-1049): report a use of a registered index-bound variable as an
object unless optional chaining or a null-checked block protects it; the
diagnostic anchors at the object identifier (path `p ++ [0]`). -/
def memberObjectIdentifierHandler (registered : List Path)
    (scopes : List (List ScopeVar)) (frames : List Frame)
    (p : Path) (node : Expr) : Option Diag :=
  match node with
  | .member (.ident objectName) _ _ _ =>
    if isArrayIndexVariable registered scopes objectName then
      if hasOptionalChaining node frames then none
      else if isInsideNullCheckedBlock frames objectName then none
      else some ⟨p ++ [0], .identN objectName, "issue:unsafe-access"⟩
    else none
  | _ => none

/-- The `CallExpression[callee.type="Identifier"]` handler
(lines 1052-1064): report a call of a registered index-bound variable
unless a null-checked block protects it; the diagnostic anchors at the
callee identifier (path `p ++ [0]`). -/
def callIdentifierHandler (registered : List Path)
    (scopes : List (List ScopeVar)) (frames : List Frame)
    (p : Path) (callee : Expr) : Option Diag :=
  match callee with
  | .ident calleeName =>
    if isArrayIndexVariable registered scopes calleeName then
      if isInsideNullCheckedBlock frames calleeName then none
      else some ⟨p ++ [0], .identN calleeName, "issue:unsafe-access"⟩
    else none
  | _ => none

/-! ## Traversal

The host traversal (`create`, lines 925-1066) visits nodes depth-first in
document order and invokes the matching listeners at each node.  It is
modelled in two stages: `collectProgram` linearizes the tree into the
pre-order list of listener sites, each carrying its ancestor frames, scope
chain and path; the analysis is then a left fold over that list, threading
the mutable `arrayIndexDeclarations` set and the emitted diagnostics.  At a
member-expression node the plain `MemberExpression` listener runs before
the more specific `MemberExpression[object.type="Identifier"]` one. -/

/-- Node kinds that have listeners. -/
inductive SiteNode where
  | declS (id : Option String) (init : Option Expr)
  | memberS (m : Expr)
  | callS (callee : Expr)

/-- One listener invocation site. -/
structure Site where
  path : Path
  frames : List Frame
  scopes : List (List ScopeVar)
  node : SiteNode

/-- Variables a list of declarators contributes to its enclosing scope
(`stmtPath` is the path of the enclosing `varDecl` statement). -/
def declaratorVars (stmtPath : Path) (decls : List (Option String × Option Expr)) :
    List ScopeVar :=
  decls.enum.filterMap (fun d =>
    match d.2.1 with
    | some n => some ⟨n, [.declarator (stmtPath ++ [d.1])]⟩
    | none => none)

/-- The scope a block (or the program) introduces: all variables declared
by its immediate `varDecl` statements, hoisted within the block. -/
def scopeOfStmts (blockPath : Path) (ss : List Stmt) : List ScopeVar :=
  ss.enum.flatMap (fun is =>
    match is.2 with
    | .varDecl ds => declaratorVars (blockPath ++ [is.1]) ds
    | _ => [])

/-- The scope a `for` statement introduces from its init declaration. -/
def forScope (forPath : Path) (init : Option Stmt) : List ScopeVar :=
  match init with
  | some (.varDecl ds) => declaratorVars (forPath ++ [0]) ds
  | _ => []

mutual

/-- Pre-order listener sites of an expression at path `p` with ancestor
frames `fs` and scope chain `sc`. -/
def collectExpr (p : Path) (fs : List Frame) (sc : List (List ScopeVar)) :
    Expr → List Site
  | .ident _ => []
  | .lit _ => []
  | .arrayLit => []
  | .objLit => []
  | .member obj prop computed opt =>
    ⟨p, fs, sc, .memberS (.member obj prop computed opt)⟩ ::
      (collectExpr (p ++ [0]) (.memberObjF prop computed opt :: fs) sc obj ++
        collectExpr (p ++ [1]) (.memberPropF :: fs) sc prop)
  | .call callee args opt =>
    ⟨p, fs, sc, .callS callee⟩ ::
      (collectExpr (p ++ [0]) (.callCalleeF opt :: fs) sc callee ++
        collectExprArgs p 1 (.callArgF :: fs) sc args)
  | .binary _ l r =>
    collectExpr (p ++ [0]) (.binaryChildF :: fs) sc l ++
      collectExpr (p ++ [1]) (.binaryChildF :: fs) sc r
  | .logical op l r =>
    collectExpr (p ++ [0]) (.logicalLeftF op r :: fs) sc l ++
      collectExpr (p ++ [1]) (.logicalRightF op l :: fs) sc r
  | .unary _ a => collectExpr (p ++ [0]) (.unaryChildF :: fs) sc a
  | .cond t c a =>
    collectExpr (p ++ [0]) (.condTestF :: fs) sc t ++
      collectExpr (p ++ [1]) (.condConsF :: fs) sc c ++
        collectExpr (p ++ [2]) (.condAltF :: fs) sc a
  | .assign l r =>
    collectExpr (p ++ [0]) (.assignChildF :: fs) sc l ++
      collectExpr (p ++ [1]) (.assignChildF :: fs) sc r
  | .chain e => collectExpr (p ++ [0]) (.chainF :: fs) sc e

/-- Sites of a call's argument list (argument `i` is child `i` of the call
node, the callee being child 0). -/
def collectExprArgs (p : Path) (i : Nat) (fs : List Frame)
    (sc : List (List ScopeVar)) : List Expr → List Site
  | [] => []
  | e :: rest => collectExpr (p ++ [i]) fs sc e ++ collectExprArgs p (i + 1) fs sc rest

/-- Pre-order listener sites of a statement. -/
def collectStmt (p : Path) (fs : List Frame) (sc : List (List ScopeVar)) :
    Stmt → List Site
  | .exprStmt e => collectExpr (p ++ [0]) (.exprStmtF :: fs) sc e
  | .varDecl ds => collectDecls p 0 fs sc ds
  | .ifStmt test cons alt =>
    collectExpr (p ++ [0]) (.ifTestF :: fs) sc test ++
      (collectStmt (p ++ [1]) (.ifConsF test :: fs) sc cons ++
        (match alt with
         | some a => collectStmt (p ++ [2]) (.ifAltF :: fs) sc a
         | none => []))
  | .block body => collectStmts p fs (scopeOfStmts p body :: sc) [] body
  | .forStmt init test update body =>
    (match init with
     | some i => collectStmt (p ++ [0]) (.forF test :: fs) (forScope p init :: sc) i
     | none => []) ++
      ((match test with
        | some t => collectExpr (p ++ [1]) (.forF test :: fs) (forScope p init :: sc) t
        | none => []) ++
        ((match update with
          | some u => collectExpr (p ++ [2]) (.forF test :: fs) (forScope p init :: sc) u
          | none => []) ++
          collectStmt (p ++ [3]) (.forF test :: fs) (forScope p init :: sc) body))
  | .ret arg =>
    (match arg with
     | some e => collectExpr (p ++ [0]) (.retThrowF :: fs) sc e
     | none => [])
  | .throwStmt e => collectExpr (p ++ [0]) (.retThrowF :: fs) sc e
  | .emptyStmt => []

/-- Sites of the statements of a block at path `p`; `done` holds the
already-traversed siblings in source order, so statement `done.length` gets
ancestor frame `blockF done rest`. -/
def collectStmts (p : Path) (fs : List Frame) (sc : List (List ScopeVar))
    (done : List Stmt) : List Stmt → List Site
  | [] => []
  | s :: rest =>
    collectStmt (p ++ [done.length]) (.blockF done rest :: fs) sc s ++
      collectStmts p fs sc (done ++ [s]) rest

/-- Sites of a declarator list of the `varDecl` statement at path `p`;
declarator `j` is child `j`, its initializer child 0 of the declarator. -/
def collectDecls (p : Path) (j : Nat) (fs : List Frame)
    (sc : List (List ScopeVar)) : List (Option String × Option Expr) → List Site
  | [] => []
  | (id, init) :: rest =>
    ⟨p ++ [j], fs, sc, .declS id init⟩ ::
      ((match init with
        | some e => collectExpr (p ++ [j, 0]) (.declInitF id :: fs) sc e
        | none => []) ++
        collectDecls p (j + 1) fs sc rest)

end

/-- Analysis state: the `arrayIndexDeclarations` set (as declarator paths)
and the diagnostics reported so far, in order. -/
structure AnalysisState where
  registered : List Path
  diags : List Diag

/-- Dispatch the listeners of one site (rule `create`, lines 970-1065). -/
def handleSite (exempt : Expr → Bool) (st : AnalysisState) : Site → AnalysisState
  | ⟨p, _, _, .declS id init⟩ =>
    { st with registered := registerDeclarator exempt st.registered p id init }
  | ⟨p, frames, scopes, .memberS m⟩ =>
    { st with diags := st.diags ++
      ((memberExpressionHandler exempt frames p m).toList ++
        (memberObjectIdentifierHandler st.registered scopes frames p m).toList) }
  | ⟨p, frames, scopes, .callS callee⟩ =>
    { st with diags := st.diags ++
      (callIdentifierHandler st.registered scopes frames p callee).toList }

/-- The pre-order listener sites of a whole program (the program plays the
role of the outermost block and scope). -/
def collectProgram (program : List Stmt) : List Site :=
  collectStmts [] [] [scopeOfStmts [] program] [] program

/-- One analysis run with a fixed exemption decision function. -/
def runRuleCore (exempt : Expr → Bool) (program : List Stmt) : List Diag :=
  ((collectProgram program).foldl (handleSite exempt) ⟨[], []⟩).diags

/-- The whole rule (source `arrayIndexCheckUndefined`, lines 910-1067): the
scope state is fresh per run, and the type services captured by `create`
are consulted only through `isSafeKeyAccess`. -/
def arrayIndexCheckUndefined (services : Option TypeServices)
    (program : List Stmt) : List Diag :=
  runRuleCore (fun node => isSafeKeyAccess node services) program

/-! ## The specification's guard list (§4.4), written from the spec's words

These definitions follow the specification text, not the source, and exist
only to compare the specified guard set with the implemented one.  They are
stated for a use site given by its access node, ancestor frames, and
structural identity key (the identity form of §4.4). -/

namespace Spec

/-- Spec §4.4 item 4's "nullish check" of subject S (identity form),
recursively: a bare truthiness test of S; a negated truthiness test `!S`;
an equality/inequality comparison of S against a `null` or `undefined`
literal with any of `==`, `===`, `!=`, `!==` (the spec does not fix an
operand order, so either order is accepted here); or a
conjunction/disjunction of nullish checks, either side sufficing. -/
def specNullishCheck (expressionKey : String) : Expr → Bool
  | .member o pr c opt =>
    getArrayIndexAccessKey (.member o pr c opt) == some expressionKey
  | .unary op arg =>
    op == "!" &&
      (match arg with
       | .member o pr c opt =>
         getArrayIndexAccessKey (.member o pr c opt) == some expressionKey
       | _ => false)
  | .binary op l r =>
    (op == "==" || op == "===" || op == "!=" || op == "!==") &&
      (((match l with
         | .member o pr c opt =>
           getArrayIndexAccessKey (.member o pr c opt) == some expressionKey
         | _ => false) &&
          (isNullLiteralExpr r || isUndefinedIdentifierExpr r)) ||
        ((match r with
          | .member o pr c opt =>
            getArrayIndexAccessKey (.member o pr c opt) == some expressionKey
          | _ => false) &&
          (isNullLiteralExpr l || isUndefinedIdentifierExpr l)))
  | .logical op l r =>
    (op == "&&" || op == "||") &&
      (specNullishCheck expressionKey l || specNullishCheck expressionKey r)
  | _ => false

/-- Spec §4.4 item 1: optional chaining applied directly to the access or
to the use itself — explicit optional-member or optional-call syntax on the
node or its immediate parent, or membership in an optional chain wrapper. -/
def guardOptionalChaining (node : Expr) (frames : List Frame) : Bool :=
  exprOptional node ||
    (match frames with
     | .memberObjF _ _ parentOptional :: _ => parentOptional
     | .callCalleeF parentOptional :: _ => parentOptional
     | _ => false) ||
    frames.any (fun f => match f with | .chainF => true | _ => false)

/-- Spec §4.4 item 2: the use is the right operand (or a descendant of the
right operand) of a logical AND whose left operand is exactly S. -/
def guardShortCircuitAnd (expressionKey : String) (frames : List Frame) : Bool :=
  frames.any (fun f =>
    match f with
    | .logicalRightF op left =>
      op == "&&" && getArrayIndexAccessKey left == some expressionKey
    | _ => false)

/-- Spec §4.4 item 3: the use sits as (or inside) the left operand of a
nullish-coalescing expression. -/
def guardNullishCoalescing (frames : List Frame) : Bool :=
  frames.any (fun f =>
    match f with
    | .logicalLeftF op _ => op == "??"
    | _ => false)

/-- Spec §4.4 item 4: the use lies inside the then branch of a conditional
whose test is a nullish check of S. -/
def guardGuardedBranch (expressionKey : String) (frames : List Frame) : Bool :=
  frames.any (fun f =>
    match f with
    | .ifConsF test => specNullishCheck expressionKey test
    | _ => false)

/-- Spec §4.4 item 5: the use lies in the test or consequent branch of a
ternary expression. -/
def guardTernaryBranch (frames : List Frame) : Bool :=
  frames.any (fun f =>
    match f with
    | .condTestF => true
    | .condConsF => true
    | _ => false)

/-- Spec §4.4 item 6: a statement preceding the use's statement in the same
enclosing block is an `if` whose test is a nullish check of S and whose
consequent exits control flow. -/
def guardEarlyExit (expressionKey : String) (frames : List Frame) : Bool :=
  match precedingStatements frames with
  | none => false
  | some stmts =>
    stmts.any (fun s =>
      match s with
      | .ifStmt test cons _ =>
        specNullishCheck expressionKey test && hasEarlyExit cons
      | _ => false)

/-- Spec §4.4 item 7: a preceding `if (!S)` statement whose consequent
assigns a value to the exact same access expression S. -/
def guardLazyInit (expressionKey : String) (frames : List Frame) : Bool :=
  match precedingStatements frames with
  | none => false
  | some stmts =>
    stmts.any (fun s =>
      match s with
      | .ifStmt test cons _ =>
        (match test with
         | .unary op arg =>
           op == "!" &&
             (match arg with
              | .member o pr c opt =>
                getArrayIndexAccessKey (.member o pr c opt) == some expressionKey
              | _ => false)
         | _ => false) &&
          hasAssignmentToExpression cons expressionKey
      | _ => false)

/-- Spec §4.4 item 8: the loop test is exactly `indexVar < arrayExpr.length`
or `indexVar <= arrayExpr.length - 1` (dot-form `.length`, subtrahend
exactly the literal 1). -/
def specLoopTest (test : Expr) (indexVar : String) (arrayKey : String) : Bool :=
  match test with
  | .binary "<" (.ident v) (.member a (.ident "length") false _) =>
    v == indexVar && getObjectKey a == some arrayKey
  | .binary "<=" (.ident v)
      (.binary "-" (.member a (.ident "length") false _) (.lit (.num 1))) =>
    v == indexVar && getObjectKey a == some arrayKey
  | _ => false

/-- Spec §4.4 item 8 at a use site: the key is an identifier equal to the
control variable of an enclosing counted `for` loop with a conforming test,
and the object is textually identical to the tested array expression. -/
def guardLoopBound (node : Expr) (frames : List Frame) : Bool :=
  match node with
  | .member obj (.ident indexVar) _ _ =>
    (match getObjectKey obj with
     | some arrayKey =>
       frames.any (fun f =>
         match f with
         | .forF (some test) => specLoopTest test indexVar arrayKey
         | _ => false)
     | none => false)
  | _ => false

/-- Some guard of §4.4 items 1-8 applies to the use site (identity form,
`expressionKey` being the access's canonical identity). -/
def specGuardApplies (node : Expr) (expressionKey : String)
    (frames : List Frame) : Bool :=
  guardOptionalChaining node frames ||
    guardShortCircuitAnd expressionKey frames ||
    guardNullishCoalescing frames ||
    guardGuardedBranch expressionKey frames ||
    guardTernaryBranch frames ||
    guardEarlyExit expressionKey frames ||
    guardLazyInit expressionKey frames ||
    guardLoopBound node frames

end Spec

/-! ## Concrete fixtures used by counterexamples and witnesses -/

/-- Expression `arr[0]`. -/
def exArr0 : Expr := .member (.ident "arr") (.lit (.num 0)) true false

/-- Statement `const arr = [1, 2, 3];` (the initializer's contents are irrelevant). -/
def exDeclArr : Stmt := .varDecl [(some "arr", some .arrayLit)]

/-- Expression `e.toString()`. -/
def exToString (e : Expr) : Expr :=
  .call (.member e (.ident "toString") false false) [] false

/-- Expression `payload.bindList[0]`. -/
def exBindList0 : Expr :=
  .member (.member (.ident "payload") (.ident "bindList") false false)
    (.lit (.num 0)) true false

/-- C1 counterexample program:
`const arr = [1,2,3]; if (flag) { arr[0].foo; }` — the use of `arr[0]` is a
direct property read, `flag` is no nullish check of `arr[0]`, yet the
implementation's blanket if-ancestor rule suppresses the diagnostic. -/
def progC1 : List Stmt :=
  [exDeclArr,
   .ifStmt (.ident "flag")
     (.block [.exprStmt (.member exArr0 (.ident "foo") false false)]) none]

/-- The traversal site of the `arr[0]` use in `progC1` (site index 2:
after the declarator site and the outer `.foo` member site). -/
def siteC1 : Site :=
  (collectProgram progC1).getD 2 ⟨[], [], [], .memberS .arrayLit⟩

/-- C2 counterexample program:
`const payload = ...; if (!payload.bindList[0]) { throw e; }
payload.bindList[0].x.y;` — a negated-truthiness early-exit guard that the
variable form would recognize, left unrecognized by the structural form. -/
def progC2 : List Stmt :=
  [.varDecl [(some "payload", some .objLit)],
   .ifStmt (.unary "!" exBindList0) (.block [.throwStmt (.ident "e")]) none,
   .exprStmt (.member (.member exBindList0 (.ident "x") false false)
     (.ident "y") false false)]

/-- C3 counterexample loop test: `i <= routes.length`. -/
def testC3 : Expr :=
  .binary "<=" (.ident "i") (.member (.ident "routes") (.ident "length") false false)

/-- C3 counterexample program:
`const routes = []; for (let i = 0; i <= routes.length; i++) { routes[i].lat; }`. -/
def progC3 : List Stmt :=
  [.varDecl [(some "routes", some .arrayLit)],
   .forStmt (some (.varDecl [(some "i", some (.lit (.num 0)))]))
     (some testC3)
     (some (.unary "++" (.ident "i")))
     (.block [.exprStmt
       (.member (.member (.ident "routes") (.ident "i") true false)
         (.ident "lat") false false)])]

/-- The traversal site of the `routes[i]` use in `progC3` (site index 4:
after the two declarator sites, the `routes.length` member site of the
test, and the outer `.lat` member site). -/
def siteC3 : Site :=
  (collectProgram progC3).getD 4 ⟨[], [], [], .memberS .arrayLit⟩

/-- Expression `routes[i]`. -/
def exRoutesI : Expr := .member (.ident "routes") (.ident "i") true false

/-- C10 counterexample program (raw-access form):
`const arr = [1,2,3]; if (null !== arr[0]) { arr[0].x; }` — the reversed
comparison is not recognized as a nullish check, yet the diagnostic is
still suppressed by the blanket if-ancestor rule. -/
def progC10 : List Stmt :=
  [exDeclArr,
   .ifStmt (.binary "!==" (.lit .nul) exArr0)
     (.block [.exprStmt (.member exArr0 (.ident "x") false false)]) none]

/-- Same shape without the `if`: `const arr = [1,2,3]; arr[0].x;`. -/
def progC10NoIf : List Stmt :=
  [exDeclArr, .exprStmt (.member exArr0 (.ident "x") false false)]

/-- C10 variable-path program:
`const arr = [1,2,3]; const item = arr[0]; if (null !== item) { item.x; }`. -/
def progC10Var : List Stmt :=
  [exDeclArr,
   .varDecl [(some "item", some exArr0)],
   .ifStmt (.binary "!==" (.lit .nul) (.ident "item"))
     (.block [.exprStmt (.member (.ident "item") (.ident "x") false false)]) none]

/-- A type services capability whose every query throws. -/
def throwingServices : TypeServices := ⟨fun _ => .error ()⟩

/-- A small program for run-level witnesses:
`const arr = [1,2,3]; const value = arr[0].toString();`. -/
def progSimple : List Stmt :=
  [exDeclArr, .varDecl [(some "value", some (exToString exArr0))]]

/-- An index type that is simultaneously numeric and (impossibly richly)
enum-flagged, string-literal and union-of-literals — used to witness that
the numeric check wins over every exemption clause. -/
def numericEnumType : TSType :=
  .mk true true false true (some []) true false false none 3

/-- An object type that the checker reports as an array type. -/
def arrayObjType : TSType :=
  .mk false false false false none false true false none 0

/-- A harmless object type (plain keyed object). -/
def plainObjType : TSType :=
  .mk false false false false none false false false none 2

/-- An enum-literal index type. -/
def enumIdxType : TSType :=
  .mk false true false false none true false false none 0

/-- A type services capability that answers every query with an
exemption-worthy pair (plain keyed object, enum-literal index). -/
def exemptingServices : TypeServices :=
  ⟨fun _ => .ok (some (plainObjType, enumIdxType))⟩

/-- A capability that throws only when queried for `arr[0]` and answers an
exemption-worthy pair for every other access. -/
def selectivelyThrowingServices : TypeServices :=
  ⟨fun e =>
    match e with
    | .member (.ident "arr") (.lit (.num 0)) true false => .error ()
    | _ => .ok (some (plainObjType, enumIdxType))⟩

/-- C3 second counterexample loop test: `i < routes.length - 2`. -/
def testC3b : Expr :=
  .binary "<" (.ident "i")
    (.binary "-" (.member (.ident "routes") (.ident "length") false false)
      (.lit (.num 2)))

/-- The loop-test family the implementation actually accepts (the amended
form of §4.4 item 8): operator `<` or `<=`, the index variable alone on the
left, and on the right either a `.length` member access of the array
expression or a subtraction whose minuend is such a `.length` access and
whose subtrahend is arbitrary. -/
def amendedLoopInfo : Expr → Option (String × String)
  | .binary op (.ident indexVar) r =>
    if op == "<" || op == "<=" then
      match r with
      | .member a lp _ _ =>
        (match lp with
         | .ident pn =>
           if pn == "length" then
             (getObjectKey a).map (fun arrayKey => (indexVar, arrayKey))
           else none
         | _ => none)
      | .binary sub (.member a lp _ _) _ =>
        if sub == "-" then
          (match lp with
           | .ident pn =>
             if pn == "length" then
               (getObjectKey a).map (fun arrayKey => (indexVar, arrayKey))
             else none
           | _ => none)
        else none
      | _ => none
    else none
  | _ => none

/-- C10 raw-path early-exit program:
`const arr = [1,2,3]; if (null !== arr[0]) return; arr[0].x;` — the
reversed guard narrows nothing, so the use after it is reported. -/
def progC10RawEarly : List Stmt :=
  [exDeclArr,
   .ifStmt (.binary "!==" (.lit .nul) exArr0) (.block [.ret none]) none,
   .exprStmt (.member exArr0 (.ident "x") false false)]

/-- Auxiliary for C5: a query that throws for one given node makes the
oracle answer "not exempt" for that node, whatever the capability answers
for any other access. -/
theorem isSafeKeyAccess_queryError (sv : TypeServices) (n : Expr)
    (herr : sv.query n = .error ()) :
    isSafeKeyAccess n (some sv) = false := by
  cases n <;> try rfl
  case member obj prop computed opt =>
    cases computed
    · rfl
    · cases prop <;> try rfl
      case ident name =>
        simp only [isSafeKeyAccess, herr]
        rfl

/-- C4: the analysis is a pure function of the source program and the
services capability — identical inputs give identical, order-stable
diagnostic lists. -/
theorem c4_determinism (p₁ p₂ : List Stmt) (sv₁ sv₂ : Option TypeServices)
    (hp : p₁ = p₂) (hsv : sv₁ = sv₂) :
    arrayIndexCheckUndefined sv₁ p₁ = arrayIndexCheckUndefined sv₂ p₂ := by
  subst hp; subst hsv; rfl

/-- Witness for C4 at a concrete program and capability. -/
theorem c4_determinism_witness :
    arrayIndexCheckUndefined none progSimple = arrayIndexCheckUndefined none progSimple :=
  c4_determinism progSimple progSimple none none rfl rfl

/-- C5: if the capability is absent, or the query for an access throws,
the oracle's answer FOR THAT ACCESS is "not exempt" — whatever the
capability answers for other accesses; the member-expression listener's
decision for that access is then exactly its syntax-only decision, so
flow-based guard checking for the access is unaffected; and a capability
whose every query throws leaves the whole analysis of any program
identical to the syntax-only run — no exception ever propagates. -/
theorem c5_oracle_failure_containment (node : Expr) :
    isSafeKeyAccess node none = false ∧
    (∀ sv : TypeServices, sv.query node = .error () →
      isSafeKeyAccess node (some sv) = false) ∧
    (∀ (sv : TypeServices) (frames : List Frame) (p : Path),
      sv.query node = .error () →
      memberExpressionHandler (fun n => isSafeKeyAccess n (some sv))
        frames p node =
        memberExpressionHandler (fun n => isSafeKeyAccess n none)
          frames p node) ∧
    (∀ (sv : TypeServices) (program : List Stmt),
      (∀ e, sv.query e = .error ()) →
      arrayIndexCheckUndefined (some sv) program =
        arrayIndexCheckUndefined none program) := by
  refine ⟨rfl, fun sv herr => isSafeKeyAccess_queryError sv node herr,
    fun sv frames p herr => ?_, fun sv program hall => ?_⟩
  · have h1 : isSafeKeyAccess node (some sv) = false :=
      isSafeKeyAccess_queryError sv node herr
    have h2 : isSafeKeyAccess node none = false := rfl
    unfold memberExpressionHandler
    simp only [h1, h2]
  · have hfun : (fun n => isSafeKeyAccess n (some sv)) =
        (fun n => isSafeKeyAccess n none) :=
      funext fun n => (isSafeKeyAccess_queryError sv n (hall n)).trans rfl
    unfold arrayIndexCheckUndefined
    rw [hfun]

/-- Witness for C5: a capability that throws only for `arr[0]` yields "not
exempt" at `arr[0]` and the syntax-only handler decision there, and an
always-throwing capability reproduces the whole syntax-only run. -/
theorem c5_oracle_failure_containment_witness :
    isSafeKeyAccess exArr0 none = false ∧
    isSafeKeyAccess exArr0 (some selectivelyThrowingServices) = false ∧
    memberExpressionHandler
      (fun n => isSafeKeyAccess n (some selectivelyThrowingServices))
      [.memberObjF (.ident "foo") false false] [] exArr0 =
      memberExpressionHandler (fun n => isSafeKeyAccess n none)
        [.memberObjF (.ident "foo") false false] [] exArr0 ∧
    arrayIndexCheckUndefined (some throwingServices) progSimple =
      arrayIndexCheckUndefined none progSimple :=
  ⟨(c5_oracle_failure_containment exArr0).1,
   (c5_oracle_failure_containment exArr0).2.1 selectivelyThrowingServices rfl,
   (c5_oracle_failure_containment exArr0).2.2.1 selectivelyThrowingServices
     [.memberObjF (.ident "foo") false false] [] rfl,
   (c5_oracle_failure_containment exArr0).2.2.2 throwingServices progSimple
     (fun _ => rfl)⟩

/-- C6: a numeric key (number flag or numeric literal type) or an
array/tuple object type makes the oracle answer "not exempt", whatever
enum/union/string-literal/base-constraint facts also hold of the types. -/
theorem c6_numeric_never_exempt (indexType objectType : TSType)
    (h : indexType.numberFlag = true ∨ indexType.numberLit = true ∨
      objectType.arrayType = true ∨ objectType.tupleType = true) :
    isTypeSafeIndex indexType objectType = false := by
  cases indexType with
  | mk nf el nl sl u se at_ tt_ bc np =>
    simp only [TSType.numberFlag, TSType.numberLit] at h
    unfold isTypeSafeIndex
    rcases h with h | h | h | h
    · simp [TSType.numberFlag, h]
    · cases nf <;> simp [TSType.numberFlag, TSType.numberLit, h]
    · cases nf <;> cases nl <;>
        simp [TSType.numberFlag, TSType.numberLit, h]
    · cases nf <;> cases nl <;>
        simp [TSType.numberFlag, TSType.numberLit, h]

/-- Witness for C6: a maximally enum/union/string-flagged numeric key and
an enum key into an array-typed object are both refused. -/
theorem c6_numeric_never_exempt_witness :
    numericEnumType.numberFlag = true ∧
    isTypeSafeIndex numericEnumType plainObjType = false ∧
    arrayObjType.arrayType = true ∧
    isTypeSafeIndex enumIdxType arrayObjType = false :=
  ⟨rfl,
   c6_numeric_never_exempt numericEnumType plainObjType (Or.inl rfl),
   rfl,
   c6_numeric_never_exempt enumIdxType arrayObjType (Or.inr (Or.inr (Or.inl rfl)))⟩

/-- C7: binding resolution walks the scope chain outward and stops at the
first scope declaring the name; when that nearest declaration carries no
registered declarator (a parameter, a re-declaration), the use resolves to
"not bound" regardless of any outer registered binding of the same name,
and neither variable-use handler reports it. -/
theorem c7_scope_resolution (registered : List Path)
    (pre : List (List ScopeVar)) (scope : List ScopeVar)
    (rest : List (List ScopeVar)) (name : String) (v : ScopeVar)
    (hpre : ∀ s ∈ pre, s.find? (fun w => w.name == name) = none)
    (hfind : scope.find? (fun w => w.name == name) = some v)
    (hunreg : ∀ d ∈ v.defs, ∀ q : Path, d = .declarator q →
      registered.contains q = false) :
    isArrayIndexVariable registered (pre ++ scope :: rest) name = false ∧
    (∀ frames p prop computed opt,
      memberObjectIdentifierHandler registered (pre ++ scope :: rest) frames p
        (.member (.ident name) prop computed opt) = none) ∧
    (∀ frames p,
      callIdentifierHandler registered (pre ++ scope :: rest) frames p
        (.ident name) = none) := by
  have hmain : isArrayIndexVariable registered (pre ++ scope :: rest) name = false := by
    induction pre with
    | nil =>
      simp only [List.nil_append, isArrayIndexVariable, hfind]
      refine List.any_eq_false.mpr (fun d hd => ?_)
      cases d with
      | declarator q => simpa using hunreg _ hd q rfl
      | param => simp
      | otherDef => simp
    | cons s pre ih =>
      simp only [List.cons_append, isArrayIndexVariable,
        hpre s (List.mem_cons_self s pre)]
      exact ih (fun s' hs' => hpre s' (List.mem_cons_of_mem s hs'))
  refine ⟨hmain, fun frames p prop computed opt => ?_, fun frames p => ?_⟩
  · simp [memberObjectIdentifierHandler, hmain]
  · simp [callIdentifierHandler, hmain]

/-- Witness for C7: an inner scope declaring `fare` as a parameter shadows
an outer registered index binding of the same name. -/
theorem c7_scope_resolution_witness :
    isArrayIndexVariable [[0, 0]]
      [[⟨"fare", [.param]⟩], [⟨"fare", [.declarator [0, 0]]⟩]] "fare" = false :=
  (c7_scope_resolution [[0, 0]] [] [⟨"fare", [.param]⟩]
    [[⟨"fare", [.declarator [0, 0]]⟩]] "fare" ⟨"fare", [.param]⟩
    (fun s hs => absurd hs (List.not_mem_nil s))
    rfl
    (fun d hd q hdq => by
      rw [List.mem_singleton] at hd
      subst hd
      exact VarDef.noConfusion hdq)).1

/-- C9: the oracle can exempt only computed accesses keyed by a bare
identifier; a non-computed access, or a computed access keyed by any other
expression form (a literal, a member expression such as `Enum.A`), is never
exempt, whatever the type checker would answer. -/
theorem c9_oracle_requires_identifier_key (services : Option TypeServices)
    (obj prop : Expr) (computed opt : Bool)
    (hprop : ∀ name, prop ≠ .ident name) :
    isSafeKeyAccess (.member obj prop computed opt) services = false ∧
    (∀ o p : Expr, ∀ op : Bool,
      isSafeKeyAccess (.member o p false op) services = false) := by
  constructor
  · cases services with
    | none => rfl
    | some sv =>
      cases computed
      · rfl
      · cases prop <;> first | rfl | exact absurd rfl (hprop _)
  · intro o p op
    cases services with
    | none => rfl
    | some sv => rfl

/-- Witness for C9: an enum-member-written key `m[Enum.A]` and a dot access
`m.k`, both under a capability that would exempt anything it is asked. -/
theorem c9_oracle_requires_identifier_key_witness :
    isSafeKeyAccess
      (.member (.ident "m") (.member (.ident "Enum") (.ident "A") false false)
        true false)
      (some exemptingServices) = false ∧
    isSafeKeyAccess (.member (.ident "m") (.ident "k") false false)
      (some exemptingServices) = false :=
  ⟨(c9_oracle_requires_identifier_key (some exemptingServices) (.ident "m")
      (.member (.ident "Enum") (.ident "A") false false) true false
      (fun _ h => Expr.noConfusion h)).1,
   (c9_oracle_requires_identifier_key (some exemptingServices) (.ident "m")
      (.member (.ident "Enum") (.ident "A") false false) true false
      (fun _ h => Expr.noConfusion h)).2 (.ident "m") (.ident "k") false⟩

/-- A successful report of the `MemberExpression` handler implies the node
passed the classifier, and the diagnostic is exactly the one anchored at the
node. -/
theorem memberExpressionHandler_some {exempt : Expr → Bool} {fs : List Frame}
    {p : Path} {node : Expr} {d : Diag}
    (h : memberExpressionHandler exempt fs p node = some d) :
    isArrayIndexAccess node = true ∧
      d = ⟨p, .memberN node, "issue:unsafe-access"⟩ := by
  unfold memberExpressionHandler at h
  split_ifs at h with h1 h2 h3 h4 h5 h6 h7
  all_goals first
    | exact Option.noConfusion h
    | exact ⟨by simpa using h1, (Option.some.inj h).symm⟩

/-- The variable-object handler only ever anchors at identifiers. -/
theorem memberObjectIdentifierHandler_identN {registered : List Path}
    {scopes : List (List ScopeVar)} {fs : List Frame} {p : Path} {m : Expr}
    {d : Diag} (h : memberObjectIdentifierHandler registered scopes fs p m = some d) :
    ∀ mm, d.rnode ≠ RNode.memberN mm := by
  unfold memberObjectIdentifierHandler at h
  split at h
  case _ objectName prop computed opt =>
    split_ifs at h with h1 h2 h3
    all_goals first
      | exact Option.noConfusion h
      | (intro mm hmm
         rw [← Option.some.inj h] at hmm
         exact RNode.noConfusion hmm)
  case _ => exact Option.noConfusion h

/-- The variable-callee handler only ever anchors at identifiers. -/
theorem callIdentifierHandler_identN {registered : List Path}
    {scopes : List (List ScopeVar)} {fs : List Frame} {p : Path} {c : Expr}
    {d : Diag} (h : callIdentifierHandler registered scopes fs p c = some d) :
    ∀ mm, d.rnode ≠ RNode.memberN mm := by
  unfold callIdentifierHandler at h
  split at h
  case _ calleeName =>
    split_ifs at h with h1 h2
    all_goals first
      | exact Option.noConfusion h
      | (intro mm hmm
         rw [← Option.some.inj h] at hmm
         exact RNode.noConfusion hmm)
  case _ => exact Option.noConfusion h

/-- Every diagnostic of a run that is anchored at a member-access node was
produced for a node the classifier accepted. -/
theorem runRuleCore_memberN_classified (exempt : Expr → Bool)
    (program : List Stmt) :
    ∀ d ∈ runRuleCore exempt program, ∀ mm,
      d.rnode = RNode.memberN mm → isArrayIndexAccess mm = true := by
  have key : ∀ (sites : List Site) (st : AnalysisState),
      (∀ d ∈ st.diags, ∀ mm, d.rnode = RNode.memberN mm →
        isArrayIndexAccess mm = true) →
      ∀ d ∈ (sites.foldl (handleSite exempt) st).diags, ∀ mm,
        d.rnode = RNode.memberN mm → isArrayIndexAccess mm = true := by
    intro sites
    induction sites with
    | nil => intro st h; exact h
    | cons s rest ih =>
      intro st hst
      rw [List.foldl_cons]
      apply ih
      intro d hd mm hmm
      obtain ⟨sp, sf, ss, sn⟩ := s
      cases sn with
      | declS id init => exact hst d hd mm hmm
      | memberS m =>
        simp only [handleSite, List.mem_append] at hd
        rcases hd with hd | hd | hd
        · exact hst d hd mm hmm
        · cases h1 : memberExpressionHandler exempt sf sp m with
          | none => rw [h1] at hd; exact absurd hd (List.not_mem_nil d)
          | some dd =>
            rw [h1] at hd
            rw [Option.toList_some, List.mem_singleton] at hd
            subst hd
            obtain ⟨hcls, hdd⟩ := memberExpressionHandler_some h1
            subst hdd
            simp only [RNode.memberN.injEq] at hmm
            subst hmm
            exact hcls
        · cases h2 : memberObjectIdentifierHandler st.registered ss sf sp m with
          | none => rw [h2] at hd; exact absurd hd (List.not_mem_nil d)
          | some dd =>
            rw [h2] at hd
            rw [Option.toList_some, List.mem_singleton] at hd
            subst hd
            exact absurd hmm (memberObjectIdentifierHandler_identN h2 mm)
      | callS c =>
        simp only [handleSite, List.mem_append] at hd
        rcases hd with hd | hd
        · exact hst d hd mm hmm
        · cases h2 : callIdentifierHandler st.registered ss sf sp c with
          | none => rw [h2] at hd; exact absurd hd (List.not_mem_nil d)
          | some dd =>
            rw [h2] at hd
            rw [Option.toList_some, List.mem_singleton] at hd
            subst hd
            exact absurd hmm (callIdentifierHandler_identN h2 mm)
  exact key (collectProgram program) ⟨[], []⟩
    (fun d hd => absurd hd (List.not_mem_nil d))

/-- C8: a non-computed (dot) member access, or one keyed by a string
literal, is never classified as a dynamic-key access, is never registered
as a binding, and no diagnostic of any run is ever anchored at it. -/
theorem c8_classifier_invariant (m : Expr)
    (hshape : (∃ obj prop opt, m = .member obj prop false opt) ∨
      (∃ obj s computed opt, m = .member obj (.lit (.str s)) computed opt)) :
    isArrayIndexAccess m = false ∧
    (∀ (exempt : Expr → Bool) (registered : List Path) (declPath : Path)
      (id : Option String),
      registerDeclarator exempt registered declPath id (some m) = registered) ∧
    (∀ (services : Option TypeServices) (program : List Stmt),
      ∀ d ∈ arrayIndexCheckUndefined services program,
        d.rnode ≠ RNode.memberN m) := by
  have hcls : isArrayIndexAccess m = false := by
    rcases hshape with ⟨obj, prop, opt, rfl⟩ | ⟨obj, s, computed, opt, rfl⟩
    · rfl
    · cases computed <;> rfl
  refine ⟨hcls, ?_, ?_⟩
  · intro exempt registered declPath id
    cases id with
    | none => rfl
    | some name => simp [registerDeclarator, hcls]
  · intro services program d hd hrn
    have := runRuleCore_memberN_classified
      (fun n => isSafeKeyAccess n services) program d hd m hrn
    rw [hcls] at this
    exact Bool.noConfusion this

/-- Witness for C8: the string-literal access `obj["foo"]`. -/
theorem c8_classifier_invariant_witness :
    isArrayIndexAccess (.member (.ident "obj") (.lit (.str "foo")) true false)
      = false ∧
    registerDeclarator (fun _ => false) [] [0, 0] (some "v")
      (some (.member (.ident "obj") (.lit (.str "foo")) true false)) = [] :=
  ⟨(c8_classifier_invariant
      (.member (.ident "obj") (.lit (.str "foo")) true false)
      (Or.inr ⟨.ident "obj", "foo", true, false, rfl⟩)).1,
   (c8_classifier_invariant
      (.member (.ident "obj") (.lit (.str "foo")) true false)
      (Or.inr ⟨.ident "obj", "foo", true, false, rfl⟩)).2.1
     (fun _ => false) [] [0, 0] (some "v")⟩

/-- C1 (amended): for a dynamic-key access used as a direct property read
or direct call, with no optional chaining, at which the type exemption, the
implementation's loop-bound narrowing, the structural null-checked-block
recognition, and the implementation's blanket ancestor check (any enclosing
`if`, right operand of any `&&`, any `??`, test/consequent of any ternary)
all fail, the member-expression listener produces exactly the one
diagnostic anchored at that access. -/
theorem c1_completeness_amended (exempt : Expr → Bool) (frames : List Frame)
    (p : Path) (node : Expr)
    (hdyn : isArrayIndexAccess node = true)
    (hex : exempt node = false)
    (hfor : isInsideSafeForLoop node frames = false)
    (hnull : ∀ key, getArrayIndexAccessKey node = some key →
      isInsideNullCheckedBlockExpression frames key = false)
    (huse : isUnsafePropertyAccess node frames = true ∨
      isUnsafeFunctionCall node frames = true) :
    memberExpressionHandler exempt frames p node =
      some ⟨p, .memberN node, "issue:unsafe-access"⟩ := by
  have hvar : getArrayIndexVariableName frames = none := by
    rcases huse with h | h
    · cases frames with
      | nil => simp [isUnsafePropertyAccess] at h
      | cons f rest =>
        cases f <;> first | rfl | simp [isUnsafePropertyAccess] at h
    · cases frames with
      | nil => simp [isUnsafeFunctionCall] at h
      | cons f rest =>
        cases f <;> first | rfl | simp [isUnsafeFunctionCall] at h
  unfold memberExpressionHandler
  cases hkey : getArrayIndexAccessKey node with
  | none =>
    by_cases hp : isUnsafePropertyAccess node frames = true
    · simp [hdyn, hvar, hex, hfor, hkey, hp]
    · have hc : isUnsafeFunctionCall node frames = true := huse.resolve_left hp
      simp [hdyn, hvar, hex, hfor, hkey, hp, hc]
  | some key =>
    have hn := hnull key hkey
    by_cases hp : isUnsafePropertyAccess node frames = true
    · simp [hdyn, hvar, hex, hfor, hkey, hn, hp]
    · have hc : isUnsafeFunctionCall node frames = true := huse.resolve_left hp
      simp [hdyn, hvar, hex, hfor, hkey, hn, hp, hc]

/-- Witness for C1 (amended): an unguarded direct property read `arr[0].foo`. -/
theorem c1_completeness_amended_witness :
    memberExpressionHandler (fun _ => false)
      [.memberObjF (.ident "foo") false false] [] exArr0 =
      some ⟨[], .memberN exArr0, "issue:unsafe-access"⟩ :=
  c1_completeness_amended (fun _ => false)
    [.memberObjF (.ident "foo") false false] [] exArr0
    (by decide) rfl (by decide)
    (fun key hk => by
      have hkey : "arr[0]" = key := Option.some.inj hk
      subst hkey
      decide)
    (Or.inl (by decide))

/-- C1 (counterexample): in `const arr = [1,2,3]; if (flag) { arr[0].foo; }`
the use of `arr[0]` is a direct property read of a dynamic-key access, none
of the §4.4 guards applies (`flag` is not a nullish check of `arr[0]`), yet
the analysis produces zero diagnostics instead of the claimed one: the
implementation suppresses any use lying inside any `if` statement. -/
theorem c1_completeness_counterexample :
    siteC1.path = [1, 1, 0, 0, 0] ∧
    siteC1.node = SiteNode.memberS exArr0 ∧
    siteC1.frames.head? = some (.memberObjF (.ident "foo") false false) ∧
    isArrayIndexAccess exArr0 = true ∧
    getArrayIndexAccessKey exArr0 = some "arr[0]" ∧
    Spec.specGuardApplies exArr0 "arr[0]" siteC1.frames = false ∧
    arrayIndexCheckUndefined none progC1 = [] :=
  ⟨rfl, rfl, rfl, by decide, by decide, by decide, rfl⟩

/-- C2 (amended): the structural-identity form of the nullish-check
recognizer accepts a bare truthiness test of S, a comparison of S (on the
left) against null/undefined under any of the four operators, and
conjunctions recursively — but, unlike the variable-name form, it accepts
neither a negated truthiness test `!S` nor any disjunction. -/
theorem c2_guard_parity_amended (key : String) :
    (∀ (op : String) (arg : Expr),
      checksForNullishExpression (.unary op arg) key = false) ∧
    (∀ l r : Expr, checksForNullishExpression (.logical "||" l r) key = false) ∧
    (∀ l r : Expr, checksForNullishExpression (.logical "&&" l r) key =
      (checksForNullishExpression l key || checksForNullishExpression r key)) ∧
    (∀ m : Expr, getArrayIndexAccessKey m = some key →
      checksForNullishExpression m key = true) ∧
    (∀ (op : String) (l r : Expr),
      (op = "==" ∨ op = "===" ∨ op = "!=" ∨ op = "!==") →
      (∃ o pr c pt, l = .member o pr c pt) →
      getArrayIndexAccessKey l = some key →
      (isNullLiteralExpr r = true ∨ isUndefinedIdentifierExpr r = true) →
      checksForNullishExpression (.binary op l r) key = true) := by
  refine ⟨fun op arg => rfl, fun l r => rfl, fun l r => rfl, ?_, ?_⟩
  · intro m hm
    have hcls : isArrayIndexAccess m = true := by
      by_contra hc
      rw [Bool.not_eq_true] at hc
      rw [getArrayIndexAccessKey, hc] at hm
      simp at hm
    cases m
    case member o pr c pt => simp [checksForNullishExpression, hm]
    all_goals simp [isArrayIndexAccess] at hcls
  · intro op l r hop hl hkey hr
    obtain ⟨o, pr, c, pt, rfl⟩ := hl
    show isBinaryNullCheckForExpression
      (.binary op (.member o pr c pt) r) key = true
    unfold isBinaryNullCheckForExpression
    rcases hop with rfl | rfl | rfl | rfl <;>
      simp [hkey] <;> rcases hr with hr | hr <;> simp_all [isNullLiteralExpr]

/-- Witness for C2 (amended) at `payload.bindList[0]`. -/
theorem c2_guard_parity_amended_witness :
    checksForNullishExpression (.unary "!" exBindList0) "payload.bindList[0]"
      = false ∧
    checksForNullishExpression (.logical "||" exBindList0 exBindList0)
      "payload.bindList[0]" = false ∧
    checksForNullishExpression exBindList0 "payload.bindList[0]" = true ∧
    checksForNullishExpression (.binary "==" exBindList0 (.lit .nul))
      "payload.bindList[0]" = true :=
  ⟨(c2_guard_parity_amended "payload.bindList[0]").1 "!" exBindList0,
   (c2_guard_parity_amended "payload.bindList[0]").2.1 exBindList0 exBindList0,
   (c2_guard_parity_amended "payload.bindList[0]").2.2.2.1 exBindList0 (by decide),
   (c2_guard_parity_amended "payload.bindList[0]").2.2.2.2 "==" exBindList0
     (.lit .nul) (Or.inl rfl)
     ⟨.member (.ident "payload") (.ident "bindList") false false,
       .lit (.num 0), true, false, rfl⟩
     (by decide) (Or.inl (by decide))⟩

/-- C2 (counterexample): the negated truthiness test and the disjunction,
both recognized by the variable-name form, are rejected by the
structural-identity form; end to end, the early-exit guard
`if (!payload.bindList[0]) { throw e; }` fails to narrow, so the later use
`payload.bindList[0].x.y` is still reported. -/
theorem c2_guard_parity_counterexample :
    checksForNullish (.unary "!" (.ident "item")) "item" = true ∧
    checksForNullishExpression (.unary "!" exBindList0) "payload.bindList[0]"
      = false ∧
    checksForNullish
      (.logical "||" (.binary "==" (.ident "item") (.lit .nul)) (.ident "flag"))
      "item" = true ∧
    checksForNullishExpression
      (.logical "||" (.binary "==" exBindList0 (.lit .nul)) (.ident "flag"))
      "payload.bindList[0]" = false ∧
    arrayIndexCheckUndefined none progC2 =
      [⟨[2, 0, 0, 0], .memberN exBindList0, "issue:unsafe-access"⟩] :=
  ⟨by decide, by decide, by decide, by decide, rfl⟩

/-- Helper for C3: the implementation's loop-test recognizer computes
exactly the amended shape family. -/
theorem getForLoopArrayInfo_eq_amended (t : Expr) :
    getForLoopArrayInfo (some t) = amendedLoopInfo t := by
  cases t <;> try rfl
  case binary op l r =>
    cases l
    case ident v =>
      simp only [getForLoopArrayInfo, amendedLoopInfo]
      by_cases h1 : op = "<"
      · subst h1
        norm_num
        cases r <;> try rfl
        rename_i sub rl rr
        cases rl <;> by_cases hs : sub = "-" <;> simp [hs]
      · by_cases h2 : op = "<="
        · subst h2
          norm_num
          cases r <;> try rfl
          rename_i sub rl rr
          cases rl <;> by_cases hs : sub = "-" <;> simp [hs]
        · have hb1 : (op == "<") = false := beq_eq_false_iff_ne.mpr h1
          have hb2 : (op == "<=") = false := beq_eq_false_iff_ne.mpr h2
          simp [bne, hb1, hb2]
    all_goals simp [getForLoopArrayInfo, amendedLoopInfo, ite_self]

/-- Helper for C3: what the use-site predicate checks — key identifier,
canonicalizable object, and some enclosing `for` frame whose test the
recognizer accepts with matching index variable and array key. -/
theorem isInsideSafeForLoop_characterization (node : Expr) (frames : List Frame) :
    isInsideSafeForLoop node frames = true ↔
      ∃ (obj : Expr) (i : String) (c o : Bool),
        node = .member obj (.ident i) c o ∧
        ∃ k, getObjectKey obj = some k ∧
          ∃ t, Frame.forF t ∈ frames ∧ getForLoopArrayInfo t = some (i, k) := by
  constructor
  · intro h
    cases node
    case member obj prop c o =>
      cases prop
      case ident i =>
        simp only [isInsideSafeForLoop] at h
        cases hobj : getObjectKey obj with
        | none => rw [hobj] at h; simp at h
        | some k =>
          rw [hobj] at h
          rw [List.any_eq_true] at h
          obtain ⟨f, hf, hP⟩ := h
          cases f
          case forF t => exact ⟨obj, i, c, o, rfl, k, hobj, t, hf, eq_of_beq hP⟩
          all_goals simp at hP
      all_goals simp [isInsideSafeForLoop] at h
    all_goals simp [isInsideSafeForLoop] at h
  · rintro ⟨obj, i, c, o, rfl, k, hobj, t, hf, hinfo⟩
    simp only [isInsideSafeForLoop]
    rw [hobj]
    rw [List.any_eq_true]
    refine ⟨Frame.forF t, hf, ?_⟩
    simp [hinfo]

/-- C3 (amended): loop-bound narrowing applies to a use site exactly when
its key is an identifier equal to the control variable of an enclosing
counted `for` loop whose test the implementation accepts, and the test
family actually accepted is `amendedLoopInfo`: operator `<` or `<=` with
the index variable alone on the left and, on the right, either a `.length`
member access of the array expression or a subtraction of an arbitrary
subtrahend from such a `.length` access — with the use's object expression
textually identical to the tested array expression. -/
theorem c3_loop_bound_amended :
    (∀ t : Expr, getForLoopArrayInfo (some t) = amendedLoopInfo t) ∧
    getForLoopArrayInfo none = none ∧
    (∀ (node : Expr) (frames : List Frame),
      isInsideSafeForLoop node frames = true ↔
        ∃ (obj : Expr) (i : String) (c o : Bool),
          node = .member obj (.ident i) c o ∧
          ∃ k, getObjectKey obj = some k ∧
            ∃ t, Frame.forF t ∈ frames ∧ getForLoopArrayInfo t = some (i, k)) :=
  ⟨getForLoopArrayInfo_eq_amended, rfl, isInsideSafeForLoop_characterization⟩

/-- C3 (counterexample): the tests `i <= routes.length` and
`i < routes.length - 2` match neither of the two spec shapes, yet the
implementation accepts both; concretely,
`for (let i = 0; i <= routes.length; i++) { routes[i].lat; }` is narrowed
and produces no diagnostic. -/
theorem c3_loop_bound_counterexample :
    Spec.specLoopTest testC3 "i" "routes" = false ∧
    getForLoopArrayInfo (some testC3) = some ("i", "routes") ∧
    Spec.specLoopTest testC3b "i" "routes" = false ∧
    getForLoopArrayInfo (some testC3b) = some ("i", "routes") ∧
    siteC3.node = SiteNode.memberS exRoutesI ∧
    isInsideSafeForLoop exRoutesI siteC3.frames = true ∧
    arrayIndexCheckUndefined none progC3 = [] :=
  ⟨by decide, by decide, by decide, by decide, rfl, by decide, rfl⟩

/-- C10 (amended): both null-check recognizers accept the guarded subject
only as the LEFT operand with the null/undefined literal on the right; a
reversed comparison (`null !== item`, `undefined !== arr[0]`) is never
recognized, under any of the four operators.  Consequently a reversed-only
test never narrows: a variable-bound use inside such a branch is still
reported, and a raw access after a reversed-only early-exit guard is still
reported.  (A raw access physically inside the `if` branch is nevertheless
suppressed by the blanket ancestor-if rule, which never inspects the
test.) -/
theorem c10_reversed_comparison_amended :
    (∀ (op name : String) (r : Expr),
      isBinaryNullCheck (.binary op (.lit .nul) r) name = false) ∧
    (∀ (op name : String) (r : Expr), name ≠ "undefined" →
      isBinaryNullCheck (.binary op (.ident "undefined") r) name = false) ∧
    (∀ (op key : String) (r : Expr),
      isBinaryNullCheckForExpression (.binary op (.lit .nul) r) key = false) ∧
    (∀ (op key : String) (r : Expr),
      isBinaryNullCheckForExpression (.binary op (.ident "undefined") r) key
        = false) ∧
    arrayIndexCheckUndefined none progC10Var =
      [⟨[2, 1, 0, 0, 0], .identN "item", "issue:unsafe-access"⟩] ∧
    arrayIndexCheckUndefined none progC10RawEarly =
      [⟨[2, 0, 0], .memberN exArr0, "issue:unsafe-access"⟩] := by
  refine ⟨?_, ?_, ?_, ?_, rfl, rfl⟩
  · intro op name r
    simp [isBinaryNullCheck, ite_self]
  · intro op name r hne
    have hb : ("undefined" == name) = false :=
      beq_eq_false_iff_ne.mpr (Ne.symm hne)
    simp [isBinaryNullCheck, ite_self, hb]
  · intro op key r
    simp [isBinaryNullCheckForExpression, ite_self]
  · intro op key r
    simp [isBinaryNullCheckForExpression, ite_self]

/-- Witness for C10 (amended) at the four reversed shapes with `!==`. -/
theorem c10_reversed_comparison_amended_witness :
    isBinaryNullCheck (.binary "!==" (.lit .nul) (.ident "item")) "item"
      = false ∧
    isBinaryNullCheck (.binary "!==" (.ident "undefined") (.ident "item"))
      "item" = false ∧
    isBinaryNullCheckForExpression (.binary "!==" (.lit .nul) exArr0) "arr[0]"
      = false ∧
    isBinaryNullCheckForExpression
      (.binary "!==" (.ident "undefined") exArr0) "arr[0]" = false :=
  ⟨c10_reversed_comparison_amended.1 "!==" "item" (.ident "item"),
   c10_reversed_comparison_amended.2.1 "!==" "item" (.ident "item")
     (by decide),
   c10_reversed_comparison_amended.2.2.1 "!==" "arr[0]" exArr0,
   c10_reversed_comparison_amended.2.2.2.1 "!==" "arr[0]" exArr0⟩

/-- C10 (counterexample): the reversed comparison is indeed never
recognized, but "a test containing only such a reversed comparison never
suppresses a diagnostic" fails on the raw-access path: wrapping the
unguarded use `arr[0].x` (one diagnostic) inside
`if (null !== arr[0]) { ... }` yields zero diagnostics, because the
blanket ancestor-if rule suppresses any use inside any `if`. -/
theorem c10_reversed_comparison_counterexample :
    isBinaryNullCheckForExpression (.binary "!==" (.lit .nul) exArr0) "arr[0]"
      = false ∧
    checksForNullishExpression (.binary "!==" (.lit .nul) exArr0) "arr[0]"
      = false ∧
    arrayIndexCheckUndefined none progC10NoIf =
      [⟨[1, 0, 0], .memberN exArr0, "issue:unsafe-access"⟩] ∧
    arrayIndexCheckUndefined none progC10 = [] :=
  ⟨by decide, by decide, rfl, rfl⟩

end AIC
